import Mathlib

/-!
# Verification of the ollama-lancache caching proxy

A shallow embedding of the core of the `jjasghar/ollama-lancache` repository:
the content-addressed store (package `internal/cache`), the Registry v2
caching proxy (`internal/proxy/server.go`), and the DNS interceptor
(`internal/dns/server.go`), together with theorems settling the frozen
claims about the natural-language specification.

Conventions of the embedding:
* Byte streams are `List Nat`; strings on the Go side are `List Char`
  (`str` injects Lean string literals).
* The sha256 function is an abstract parameter `hash : List Nat → List Char`
  mapping a byte sequence to its digest string: the claims about the store
  are hash-generic ("for every `b` with `hash(b) = d` / `≠ d` …"), so each
  theorem quantifies over `hash`, covering sha256 as an instance.
* Stateful code is embedded as explicit state passing over `Store`;
  fallible operations return `Except`/`Option`.
-/

namespace OllamaLancache

/-- Characters of a Lean string literal, the form all Go strings take here. -/
def str (s : String) : List Char := s.data

/-- UTF-8-agnostic byte view of an ASCII string (used for response bodies). -/
def strBytes (s : String) : List Nat := s.data.map Char.toNat

/-! ## The content-addressed store

The `internal/cache` package itself is not among the provided sources —
only its callers and tests are — so the store operations below are
modelled from the spec (section 4.1 "Store") and from how the tests in
`test/cache_miss_test.go` and `internal/proxy/server_test.go` exercise
them.  The atomic-write protocol (stage into a unique temporary file,
rename into place, delete the temporary on digest mismatch) makes the
store's observable state exactly the map of committed destination files;
temporary files are never visible through the interface, so the model's
state is that map. -/

/-- A layer / config descriptor of a manifest: `mediaType`, `digest`,
`size`, exactly the fields the repository's tests construct
(`cache.Layer{MediaType, Digest, Size}`). Modelled from the spec:
the `cache.Layer` struct of the missing `internal/cache` package. -/
structure Layer where
  mediaType : List Char
  digest : List Char
  size : Int
deriving DecidableEq

/-- A parsed manifest: `schemaVersion`, `mediaType`, `config`, `layers`,
exactly the fields the repository's tests construct
(`cache.Manifest{SchemaVersion, MediaType, Config, Layers}`). Modelled
from the spec: the `cache.Manifest` struct of the missing
`internal/cache` package; the JSON tags are the lowercase names shown in
the spec's scenario S1. -/
structure Manifest where
  schemaVersion : Int
  mediaType : List Char
  config : Layer
  layers : List Layer
deriving DecidableEq

/-- The key of a stored manifest: `(registry, namespace, model, tag)`,
as passed to `StoreManifest`/`GetManifest`/`HasManifest`. -/
structure ManifestKey where
  registry : List Char
  nspace : List Char
  modelName : List Char
  tag : List Char
deriving DecidableEq

/-- First-match association-list lookup (the observable content of the
blobs directory: digest → committed bytes). -/
def lookupAssoc {α : Type} : List (List Char × α) → List Char → Option α
  | [], _ => none
  | (k, v) :: rest, d => if k = d then some v else lookupAssoc rest d

/-- Manifest lookup keyed by `ManifestKey`. -/
def lookupManifest : List (ManifestKey × Manifest) → ManifestKey → Option Manifest
  | [], _ => none
  | (k, v) :: rest, key => if k = key then some v else lookupManifest rest key

/-- Observable state of the store: committed blobs (digest → bytes) and
committed manifests (key → parsed manifest). Modelled from the spec:
the on-disk state of the missing `internal/cache` package, with the
temporary-file staging collapsed away (staged files are deleted or
renamed before any operation returns, so they are unobservable). -/
structure Store where
  blobs : List (List Char × List Nat)
  manifests : List (ManifestKey × Manifest)
deriving DecidableEq

/-- The store of a freshly created empty cache directory. -/
def emptyStore : Store := { blobs := [], manifests := [] }

/-- Error kinds of store operations, from the spec's failure taxonomy. -/
inductive StoreError where
  | digestMismatch
  | ioError
deriving DecidableEq

/-- `HasBlob(digest)`: non-blocking existence check. Modelled from the
spec: `HasBlob(digest) → bool` of the missing `internal/cache` package. -/
def HasBlob (st : Store) (digest : List Char) : Bool :=
  (lookupAssoc st.blobs digest).isSome

/-- `GetBlob(digest)`: open the committed bytes, `none` = NotFound.
Modelled from the spec: `GetBlob(digest) → stream | NotFound` of the
missing `internal/cache` package. -/
def GetBlob (st : Store) (digest : List Char) : Option (List Nat) :=
  lookupAssoc st.blobs digest

/-- `StoreBlob(digest, stream)`: consume the stream, hash it while
streaming into a temporary file, and commit (rename over the destination
name) only if the computed digest equals the key; otherwise delete the
temporary and fail with `DigestMismatch`, leaving the store unchanged.
Modelled from the spec: `StoreBlob` of the missing `internal/cache`
package (spec section 4.1, atomic-write protocol). Returns the result
and the post-state. -/
def StoreBlob (hash : List Nat → List Char) (st : Store) (digest : List Char)
    (b : List Nat) : Except StoreError Unit × Store :=
  if hash b = digest then
    (Except.ok (), { st with blobs := (digest, b) :: st.blobs })
  else
    (Except.error StoreError.digestMismatch, st)

/-- `HasManifest(registry, ns, model, tag)`. Modelled from the spec:
`HasManifest` of the missing `internal/cache` package. -/
def HasManifest (st : Store) (k : ManifestKey) : Bool :=
  (lookupManifest st.manifests k).isSome

/-- `GetManifest(key)`: the committed parsed manifest, `none` = NotFound.
Modelled from the spec: `GetManifest` of the missing `internal/cache`
package. -/
def GetManifest (st : Store) (k : ManifestKey) : Option Manifest :=
  lookupManifest st.manifests k

/-- `StoreManifest(key, manifest)`: serialize and write atomically under
the key; re-storing the same key overwrites. Modelled from the spec:
`StoreManifest` of the missing `internal/cache` package. -/
def StoreManifest (st : Store) (k : ManifestKey) (m : Manifest) : Store :=
  { st with manifests := (k, m) :: st.manifests }

/-- C1. For every digest `d` and byte stream `b` whose hash differs from
`d`, `StoreBlob(d, b)` fails with `DigestMismatch`, the store is left
exactly as it was (the temporary file is deleted, no file under the
destination name is created), and `HasBlob(d)` remains false. -/
theorem C1_storeBlob_digestMismatch (hash : List Nat → List Char) (st : Store)
    (d : List Char) (b : List Nat) (hne : hash b ≠ d)
    (hpre : HasBlob st d = false) :
    StoreBlob hash st d b = (Except.error StoreError.digestMismatch, st) ∧
    HasBlob (StoreBlob hash st d b).2 d = false := by
  constructor
  · simp [StoreBlob, hne]
  · simp [StoreBlob, hne, hpre]

/-- Witness for C1 at a concrete hash, store, digest and byte stream. -/
theorem C1_witness :
    (fun _ : List Nat => str "sha256:aa") [255, 255] ≠ str "sha256:00" ∧
    HasBlob emptyStore (str "sha256:00") = false ∧
    (StoreBlob (fun _ => str "sha256:aa") emptyStore (str "sha256:00") [255, 255] =
        (Except.error StoreError.digestMismatch, emptyStore) ∧
      HasBlob (StoreBlob (fun _ => str "sha256:aa") emptyStore (str "sha256:00")
          [255, 255]).2 (str "sha256:00") = false) :=
  ⟨by decide, by decide,
    C1_storeBlob_digestMismatch (fun _ => str "sha256:aa") emptyStore
      (str "sha256:00") [255, 255] (by decide) (by decide)⟩

/-- C2. For every digest `d` and byte sequence `b` whose hash equals `d`,
`StoreBlob(d, b)` succeeds and a subsequent `GetBlob(d)` returns exactly
the bytes `b`. -/
theorem C2_storeBlob_getBlob_roundtrip (hash : List Nat → List Char) (st : Store)
    (d : List Char) (b : List Nat) (h : hash b = d) :
    (StoreBlob hash st d b).1 = Except.ok () ∧
    GetBlob (StoreBlob hash st d b).2 d = some b := by
  constructor
  · simp [StoreBlob, h]
  · simp [StoreBlob, h, GetBlob, lookupAssoc]

/-- Witness for C2 at a concrete hash, store, digest and byte stream. -/
theorem C2_witness :
    (fun _ : List Nat => str "sha256:aa") [1, 2, 3] = str "sha256:aa" ∧
    ((StoreBlob (fun _ => str "sha256:aa") emptyStore (str "sha256:aa")
        [1, 2, 3]).1 = Except.ok () ∧
      GetBlob (StoreBlob (fun _ => str "sha256:aa") emptyStore (str "sha256:aa")
          [1, 2, 3]).2 (str "sha256:aa") = some [1, 2, 3]) :=
  ⟨by decide,
    C2_storeBlob_getBlob_roundtrip (fun _ => str "sha256:aa") emptyStore
      (str "sha256:aa") [1, 2, 3] (by decide)⟩

/-! ## Manifest JSON round-tripping (claim C4)

`fetchAndCacheManifest` (`internal/proxy/server.go`) reads the upstream
response body, `json.Unmarshal`s it into `cache.Manifest`, stores the
struct with `StoreManifest`, and writes the *raw* body to the client;
cache hits in `handleManifestRequest` serve `json.NewEncoder(w).Encode`
of the stored struct.  We model JSON documents as ordered trees (`Json`)
— two documents with different fields or field order certainly differ
as byte sequences, so a document-level inequality refutes byte-level
identity — and model Go's `encoding/json` field handling on the
`cache.Manifest` struct: unknown keys are ignored, missing keys leave
the zero value, keys are matched case-insensitively (the struct's tags
have pairwise distinct lowercase forms, so Go's exact-match preference
is unobservable), later duplicate keys overwrite, and a type mismatch
aborts with an error. -/

/-- A JSON document: integer numbers, strings, arrays, objects with
ordered fields (the fragment the manifest pipeline touches). -/
inductive Json where
  | num (n : Int)
  | jstr (s : List Char)
  | arr (xs : List Json)
  | obj (fields : List (List Char × Json))

/-- Lowercasing for Go's case-insensitive JSON field matching. -/
def lcChars (s : List Char) : List Char := s.map Char.toLower

/-- One key/value of a JSON object decoded into a partially-built
`cache.Layer`, following `encoding/json`: match the key against the
struct tags `mediaType`/`digest`/`size` case-insensitively, fail on a
type mismatch, ignore unknown keys. -/
def decodeLayerStep (acc : Option Layer) (kv : List Char × Json) : Option Layer :=
  match acc with
  | none => none
  | some l =>
    if lcChars kv.1 = str "mediatype" then
      match kv.2 with | .jstr s => some { l with mediaType := s } | _ => none
    else if lcChars kv.1 = str "digest" then
      match kv.2 with | .jstr s => some { l with digest := s } | _ => none
    else if lcChars kv.1 = str "size" then
      match kv.2 with | .num n => some { l with size := n } | _ => none
    else some l

/-- `json.Unmarshal` of a document into `cache.Layer`. -/
def goUnmarshalLayer : Json → Option Layer
  | .obj fields => fields.foldl decodeLayerStep (some ⟨[], [], 0⟩)
  | _ => none

/-- `json.Unmarshal` of a JSON array into `[]cache.Layer`: elements in
order, abort on the first element that fails to decode. -/
def goUnmarshalLayerList : List Json → Option (List Layer)
  | [] => some []
  | x :: xs =>
    match goUnmarshalLayer x, goUnmarshalLayerList xs with
    | some l, some ls => some (l :: ls)
    | _, _ => none

/-- One key/value of a JSON object decoded into a partially-built
`cache.Manifest` (tags `schemaVersion`/`mediaType`/`config`/`layers`). -/
def decodeManifestStep (acc : Option Manifest) (kv : List Char × Json) : Option Manifest :=
  match acc with
  | none => none
  | some m =>
    if lcChars kv.1 = str "schemaversion" then
      match kv.2 with | .num n => some { m with schemaVersion := n } | _ => none
    else if lcChars kv.1 = str "mediatype" then
      match kv.2 with | .jstr s => some { m with mediaType := s } | _ => none
    else if lcChars kv.1 = str "config" then
      match goUnmarshalLayer kv.2 with | some l => some { m with config := l } | none => none
    else if lcChars kv.1 = str "layers" then
      match kv.2 with
      | .arr xs =>
        match goUnmarshalLayerList xs with
        | some ls => some { m with layers := ls }
        | none => none
      | _ => none
    else some m

/-- `json.Unmarshal(body, &manifest)` as performed by
`fetchAndCacheManifest`: `none` is a parse error. -/
def goUnmarshalManifest : Json → Option Manifest
  | .obj fields => fields.foldl decodeManifestStep (some ⟨0, [], ⟨[], [], 0⟩, []⟩)
  | _ => none

/-- `json.Marshal` of a `cache.Layer`: fields in struct order under
their tags. -/
def goMarshalLayer (l : Layer) : Json :=
  .obj [(str "mediaType", .jstr l.mediaType),
        (str "digest", .jstr l.digest),
        (str "size", .num l.size)]

/-- `json.Marshal` of a `cache.Manifest`: fields in struct order under
their tags (this is what `json.NewEncoder(w).Encode(manifest)` writes
on a cache hit and what `StoreManifest` persists). -/
def goMarshalManifest (m : Manifest) : Json :=
  .obj [(str "schemaVersion", .num m.schemaVersion),
        (str "mediaType", .jstr m.mediaType),
        (str "config", goMarshalLayer m.config),
        (str "layers", .arr (m.layers.map goMarshalLayer))]

/-- `fetchAndCacheManifest` (`internal/proxy/server.go:848`) at the
document level: on upstream 200 the body is parsed; a successful parse
is stored under the key, a parse failure only skips caching; the body
sent to the client is the upstream body in all cases; non-200 responses
are mirrored without caching. Returns `((status, clientBody), store)`. -/
def fetchAndCacheManifest (st : Store) (k : ManifestKey) (upstreamStatus : Nat)
    (upstreamBody : Json) : (Nat × Json) × Store :=
  if upstreamStatus = 200 then
    match goUnmarshalManifest upstreamBody with
    | some m => ((200, upstreamBody), StoreManifest st k m)
    | none => ((200, upstreamBody), st)
  else ((upstreamStatus, upstreamBody), st)

/-- The document a cache hit serves: `handleManifestRequest`
(`internal/proxy/server.go:756`) re-encodes the stored struct with
`json.NewEncoder(w).Encode(manifest)`. -/
def manifestHitBody (st : Store) (k : ManifestKey) : Option Json :=
  (GetManifest st k).map goMarshalManifest

/-- A concrete manifest key for the counterexample. -/
def exKey : ManifestKey :=
  ⟨str "registry.ollama.ai", str "library", str "llama3", str "8b"⟩

/-- A well-formed upstream manifest document carrying one field the
`cache.Manifest` struct does not declare. -/
def exDoc : Json :=
  .obj [(str "schemaVersion", .num 2), (str "extra", .num 1)]

/-- C4, counterexample: after a cache miss stores the upstream document
`{"schemaVersion":2,"extra":1}`, the cache-hit response is the
re-serialized struct — the `extra` field is dropped and the struct's
other fields are materialized — so the served document (hence its byte
serialization) is not identical to the document received from upstream,
even though the miss itself succeeded with status 200. -/
theorem C4_counterexample :
    (fetchAndCacheManifest emptyStore exKey 200 exDoc).1 = (200, exDoc) ∧
    manifestHitBody (fetchAndCacheManifest emptyStore exKey 200 exDoc).2 exKey ≠
      some exDoc := by
  refine ⟨rfl, ?_⟩
  intro h
  have h2 : goMarshalManifest ⟨2, [], ⟨[], [], 0⟩, []⟩ = exDoc := by
    have h1 : manifestHitBody (fetchAndCacheManifest emptyStore exKey 200 exDoc).2 exKey =
        some (goMarshalManifest ⟨2, [], ⟨[], [], 0⟩, []⟩) := rfl
    exact Option.some.inj (h1 ▸ h)
  simp [goMarshalManifest, goMarshalLayer, exDoc, str] at h2

/-- `json.Unmarshal ∘ json.Marshal` is the identity on `cache.Layer`. -/
theorem goUnmarshalLayer_goMarshalLayer (l : Layer) :
    goUnmarshalLayer (goMarshalLayer l) = some l := by
  obtain ⟨mt, dg, sz⟩ := l
  simp +decide [goMarshalLayer, goUnmarshalLayer, decodeLayerStep]

/-- `json.Unmarshal ∘ json.Marshal` is the identity on `[]cache.Layer`. -/
theorem goUnmarshalLayerList_map (ls : List Layer) :
    goUnmarshalLayerList (ls.map goMarshalLayer) = some ls := by
  induction ls with
  | nil => rfl
  | cons l ls ih =>
    simp [goUnmarshalLayerList, goUnmarshalLayer_goMarshalLayer, ih]

/-- `json.Unmarshal ∘ json.Marshal` is the identity on `cache.Manifest`. -/
theorem goUnmarshalManifest_goMarshalManifest (m : Manifest) :
    goUnmarshalManifest (goMarshalManifest m) = some m := by
  obtain ⟨sv, mt, cfg, ls⟩ := m
  simp +decide [goMarshalManifest, goUnmarshalManifest, decodeManifestStep,
    goUnmarshalLayer_goMarshalLayer, goUnmarshalLayerList_map]

/-- C4, amended: a manifest fetched on a cache miss is returned to the
client verbatim, but it is *stored* as the `cache.Manifest` struct the
body parses to, and cache hits serve that struct's re-serialization —
structurally faithful (parsing the served document recovers exactly the
stored struct, i.e. `schemaVersion`, `mediaType`, `config` and `layers`
survive), but not byte-identical: undeclared fields, field order and
formatting are not preserved. -/
theorem C4_manifest_restore (st : Store) (k : ManifestKey) (doc : Json)
    (m : Manifest) (hparse : goUnmarshalManifest doc = some m) :
    fetchAndCacheManifest st k 200 doc = ((200, doc), StoreManifest st k m) ∧
    manifestHitBody (StoreManifest st k m) k = some (goMarshalManifest m) ∧
    goUnmarshalManifest (goMarshalManifest m) = some m := by
  refine ⟨?_, ?_, goUnmarshalManifest_goMarshalManifest m⟩
  · simp [fetchAndCacheManifest, hparse]
  · simp [manifestHitBody, StoreManifest, GetManifest, lookupManifest]

/-- Witness for the amended C4 at the counterexample document. -/
theorem C4_witness :
    goUnmarshalManifest exDoc = some ⟨2, [], ⟨[], [], 0⟩, []⟩ ∧
    (fetchAndCacheManifest emptyStore exKey 200 exDoc =
        ((200, exDoc), StoreManifest emptyStore exKey ⟨2, [], ⟨[], [], 0⟩, []⟩) ∧
      manifestHitBody (StoreManifest emptyStore exKey ⟨2, [], ⟨[], [], 0⟩, []⟩) exKey =
        some (goMarshalManifest ⟨2, [], ⟨[], [], 0⟩, []⟩) ∧
      goUnmarshalManifest (goMarshalManifest ⟨2, [], ⟨[], [], 0⟩, []⟩) =
        some ⟨2, [], ⟨[], [], 0⟩, []⟩) :=
  ⟨rfl,
    C4_manifest_restore emptyStore exKey exDoc ⟨2, [], ⟨[], [], 0⟩, []⟩ rfl⟩

/-! ## Request routing (`Start` and `handleRequest`, `internal/proxy/server.go`)

The HTTP mux registers `/` → `handleRequest`, `/health`, `/cache/stats`
and the subtree `/blobs/` (server.go:616-629); `handleRequest`
(server.go:687-754) then checks the Ollama API paths, the registry root
`/v2/`, `manifestPattern` and `blobPattern` in that order, and proxies
everything else upstream.  The two regular expressions
`^/v2/([^/]+)/([^/]+)/manifests/(.+)$` and
`^/v2/([^/]+)/([^/]+)/blobs/(sha256:[a-f0-9]{64})$` are embedded by
their matching semantics over character lists.  Go's `ServeMux` path
canonicalization (cleaning of `..` and `//`, 301 redirect of `/blobs`
to `/blobs/`) is outside the model: paths are taken as already clean. -/

/-- `strings.Split` by a one-character separator (also the segment view
used to state the regex semantics): `splitOnChar sep s` never returns
`[]`, and returns `[[]]` on the empty input, like Go. -/
def splitOnChar (sep : Char) : List Char → List (List Char)
  | [] => [[]]
  | c :: cs =>
    if c = sep then [] :: splitOnChar sep cs
    else
      match splitOnChar sep cs with
      | [] => [[c]]
      | h :: t => (c :: h) :: t

/-- `splitOnChar` never produces the empty list. -/
theorem splitOnChar_ne_nil (sep : Char) (l : List Char) : splitOnChar sep l ≠ [] := by
  induction l with
  | nil => simp [splitOnChar]
  | cons c cs ih =>
    simp only [splitOnChar]
    split
    · simp
    · split
      · simp
      · simp

/-- A separator-free list is a single segment. -/
theorem splitOnChar_not_mem {sep : Char} {l : List Char} (h : sep ∉ l) :
    splitOnChar sep l = [l] := by
  induction l with
  | nil => rfl
  | cons c cs ih =>
    have hc : ¬c = sep := by rintro rfl; exact h (List.mem_cons_self _ _)
    have hcs : sep ∉ cs := fun hm => h (List.mem_cons_of_mem _ hm)
    simp [splitOnChar, hc, ih hcs]

/-- Splitting peels off a separator-free head segment. -/
theorem splitOnChar_append {sep : Char} {a : List Char} (rest : List Char)
    (h : sep ∉ a) :
    splitOnChar sep (a ++ sep :: rest) = a :: splitOnChar sep rest := by
  induction a with
  | nil => simp [splitOnChar]
  | cons c cs ih =>
    have hc : ¬c = sep := by rintro rfl; exact h (List.mem_cons_self _ _)
    have hcs : sep ∉ cs := fun hm => h (List.mem_cons_of_mem _ hm)
    show splitOnChar sep (c :: (cs ++ sep :: rest)) = (c :: cs) :: splitOnChar sep rest
    simp only [splitOnChar, if_neg hc]
    rw [ih hcs]

/-- `strings.HasPrefix` over character lists. -/
def listStartsWith : List Char → List Char → Bool
  | [], _ => true
  | _ :: _, [] => false
  | c :: cs, x :: xs => c == x && listStartsWith cs xs

/-- Having a prefix is exactly being an append extension of it. -/
theorem listStartsWith_iff (pre s : List Char) :
    listStartsWith pre s = true ↔ ∃ t, s = pre ++ t := by
  induction pre generalizing s with
  | nil => simp [listStartsWith]
  | cons c cs ih =>
    cases s with
    | nil => simp [listStartsWith]
    | cons x xs =>
      simp only [listStartsWith, Bool.and_eq_true, beq_iff_eq, ih, List.cons_append,
        List.cons.injEq]
      constructor
      · rintro ⟨rfl, t, rfl⟩; exact ⟨t, rfl, rfl⟩
      · rintro ⟨t, rfl, rfl⟩; exact ⟨rfl, t, rfl⟩

/-- A lowercase-hex character, the class `[a-f0-9]` of `blobPattern`. -/
def isLowerHexChar (c : Char) : Bool :=
  (('a' ≤ c) && (c ≤ 'f')) || (('0' ≤ c) && (c ≤ '9'))

/-- The digest capture of `blobPattern`: exactly `sha256:` followed by
64 lowercase hexadecimal characters (server.go:597). -/
def isSha256Digest (d : List Char) : Bool :=
  listStartsWith (str "sha256:") d &&
    (d.drop 7).length == 64 && (d.drop 7).all isLowerHexChar

/-- Segment join, the inverse view of `splitOnChar '/'`. -/
def joinSlash : List (List Char) → List Char
  | [] => []
  | [x] => x
  | x :: xs => x ++ '/' :: joinSlash xs

/-- Matching semantics of
`manifestPattern = ^/v2/([^/]+)/([^/]+)/manifests/(.+)$`
(server.go:596): two nonempty slash-free segments, the literal segment
`manifests`, and a nonempty newline-free remainder (`.` in a Go regexp
does not match a newline). -/
def manifestMatch (p : List Char) : Option (List Char × List Char × List Char) :=
  if listStartsWith (str "/v2/") p then
    match splitOnChar '/' (p.drop 4) with
    | ns :: repo :: lit :: t :: ts =>
      if ns ≠ [] ∧ repo ≠ [] ∧ lit = str "manifests" ∧ joinSlash (t :: ts) ≠ [] ∧
          '\n' ∉ joinSlash (t :: ts) then
        some (ns, repo, joinSlash (t :: ts))
      else none
    | _ => none
  else none

/-- Matching semantics of
`blobPattern = ^/v2/([^/]+)/([^/]+)/blobs/(sha256:[a-f0-9]{64})$`
(server.go:597): two nonempty slash-free segments, the literal segment
`blobs`, and a final segment that is `sha256:` plus 64 lowercase hex
characters (the digest class contains no slash, so the anchored match
forces exactly four segments). -/
def blobMatch (p : List Char) : Option (List Char × List Char × List Char) :=
  if listStartsWith (str "/v2/") p then
    match splitOnChar '/' (p.drop 4) with
    | [ns, repo, lit, d] =>
      if ns ≠ [] ∧ repo ≠ [] ∧ lit = str "blobs" ∧ isSha256Digest d then
        some (ns, repo, d)
      else none
    | _ => none
  else none

/-- Where a request path is dispatched, after the mux (`Start`,
server.go:616-629) and the checks of `handleRequest`
(server.go:687-754), in source order. -/
inductive Route where
  | health
  | cacheStats
  | directBlob
  | ollamaPull
  | ollamaTags
  | unsupported (op : List Char)
  | registryRoot
  | manifest (ns repo tag : List Char)
  | blob (ns repo digest : List Char)
  | passThrough
deriving DecidableEq

/-- The dispatch function: mux patterns first (`/health`,
`/cache/stats`, subtree `/blobs/`; everything else reaches
`handleRequest`), then `handleRequest`'s checks in source order:
`/api/pull`, `/api/tags`, `/api/generate`, `/api/chat`, other `/api/`
paths, the registry root `/v2/`, `manifestPattern`, `blobPattern`, and
finally `proxyToUpstream`. -/
def routeRequest (p : List Char) : Route :=
  if p = str "/health" then .health
  else if p = str "/cache/stats" then .cacheStats
  else if listStartsWith (str "/blobs/") p then .directBlob
  else if p = str "/api/pull" then .ollamaPull
  else if p = str "/api/tags" then .ollamaTags
  else if p = str "/api/generate" then .unsupported (str "generate")
  else if p = str "/api/chat" then .unsupported (str "chat")
  else if listStartsWith (str "/api/") p then .unsupported (p.drop 5)
  else if p = str "/v2/" then .registryRoot
  else
    match manifestMatch p with
    | some (ns, repo, tag) => .manifest ns repo tag
    | none =>
      match blobMatch p with
      | some (ns, repo, d) => .blob ns repo d
      | none => .passThrough

/-- Character-list form of the `/v2/` prefix. -/
theorem str_v2 : str "/v2/" = ['/', 'v', '2', '/'] := rfl

/-- Paths under `/v2/` fall through every guard before the two pattern
matches: they are not `/health`, `/cache/stats`, a `/blobs/` path, an
`/api/` path, nor (when something follows the prefix) the registry root. -/
theorem routeRequest_v2 {p t : List Char} (hp : p = ['/', 'v', '2', '/'] ++ t)
    (ht : t ≠ []) :
    routeRequest p =
      (match manifestMatch p with
        | some (ns, repo, tag) => Route.manifest ns repo tag
        | none =>
          match blobMatch p with
          | some (ns, repo, d) => Route.blob ns repo d
          | none => Route.passThrough) := by
  subst hp
  have h1 : ¬(['/', 'v', '2', '/'] ++ t = str "/health") := by simp +decide [str]
  have h2 : ¬(['/', 'v', '2', '/'] ++ t = str "/cache/stats") := by simp +decide [str]
  have h3 : listStartsWith (str "/blobs/") (['/', 'v', '2', '/'] ++ t) = false := rfl
  have h4 : ¬(['/', 'v', '2', '/'] ++ t = str "/api/pull") := by simp +decide [str]
  have h5 : ¬(['/', 'v', '2', '/'] ++ t = str "/api/tags") := by simp +decide [str]
  have h6 : ¬(['/', 'v', '2', '/'] ++ t = str "/api/generate") := by simp +decide [str]
  have h7 : ¬(['/', 'v', '2', '/'] ++ t = str "/api/chat") := by simp +decide [str]
  have h8 : listStartsWith (str "/api/") (['/', 'v', '2', '/'] ++ t) = false := rfl
  have h9 : ¬(['/', 'v', '2', '/'] ++ t = str "/v2/") := by
    simp [str_v2, ht]
  rw [routeRequest, if_neg h1, if_neg h2, if_neg (by rw [h3]; simp), if_neg h4,
    if_neg h5, if_neg h6, if_neg h7, if_neg (by rw [h8]; simp), if_neg h9]

/-- Unpacking a successful `blobPattern` match: the path decomposes as
`/v2/` + four segments `[ns, repo, "blobs", digest]` with the side
conditions of the pattern. -/
theorem blobMatch_elim {p ns repo d : List Char}
    (h : blobMatch p = some (ns, repo, d)) :
    ∃ t, p = ['/', 'v', '2', '/'] ++ t ∧
      splitOnChar '/' t = [ns, repo, str "blobs", d] ∧
      ns ≠ [] ∧ repo ≠ [] ∧ isSha256Digest d = true := by
  unfold blobMatch at h
  split at h
  case isFalse => exact absurd h (by simp)
  case isTrue hpre =>
    obtain ⟨t, rfl⟩ := (listStartsWith_iff _ _).1 hpre
    rw [str_v2] at *
    have hdrop : ((['/', 'v', '2', '/'] : List Char) ++ t).drop 4 = t := rfl
    rw [hdrop] at h
    revert h
    split
    next ns' repo' lit d' heq =>
      intro h
      split at h
      case isTrue hcond =>
        obtain ⟨hc1, hc2, rfl, hc4⟩ := hcond
        simp only [Option.some.injEq, Prod.mk.injEq] at h
        obtain ⟨rfl, rfl, rfl⟩ := h
        exact ⟨t, rfl, heq, hc1, hc2, hc4⟩
      case isFalse => exact absurd h (by simp)
    next => intro h; exact absurd h (by simp)

/-- A path whose third segment under `/v2/` is the literal `blobs`
cannot match `manifestPattern` (which demands the literal `manifests`
there). -/
theorem manifestMatch_none_of_blobs {p t ns repo d : List Char}
    (hp : p = ['/', 'v', '2', '/'] ++ t)
    (hsplit : splitOnChar '/' t = [ns, repo, str "blobs", d]) :
    manifestMatch p = none := by
  subst hp
  unfold manifestMatch
  rw [if_pos (by rfl)]
  have hdrop : ((['/', 'v', '2', '/'] : List Char) ++ t).drop 4 = t := rfl
  rw [hdrop, hsplit]
  refine if_neg ?_
  rintro ⟨-, -, hlit, -⟩
  revert hlit
  decide

/-- A successful `blobPattern` match routes to the blob handler. -/
theorem routeRequest_of_blobMatch {p ns repo d : List Char}
    (h : blobMatch p = some (ns, repo, d)) :
    routeRequest p = Route.blob ns repo d := by
  obtain ⟨t, hp, hsplit, -, -, -⟩ := blobMatch_elim h
  have ht : t ≠ [] := by
    rintro rfl
    rw [show splitOnChar '/' ([] : List Char) = [[]] from rfl] at hsplit
    exact absurd hsplit (by simp)
  rw [routeRequest_v2 hp ht, manifestMatch_none_of_blobs hp hsplit, h]

/-- C8. A path is dispatched to the blob handler exactly when it
matches `blobPattern` (`/v2/{ns}/{repo}/blobs/sha256:` + 64 lowercase
hex); and a path of the blob shape whose final segment is anything else
(different algorithm, wrong length, uppercase hex) is routed to the
transparent upstream pass-through. -/
theorem C8_blob_dispatch (p ns repo d : List Char) :
    (routeRequest p = Route.blob ns repo d ↔ blobMatch p = some (ns, repo, d)) ∧
    (p = str "/v2/" ++ ns ++ str "/" ++ repo ++ str "/blobs/" ++ d →
      ns ≠ [] → repo ≠ [] → ('/' : Char) ∉ ns → ('/' : Char) ∉ repo →
      ('/' : Char) ∉ d → isSha256Digest d = false →
      routeRequest p = Route.passThrough) := by
  constructor
  · constructor
    · intro hr
      unfold routeRequest at hr
      split_ifs at hr <;> try simp at hr
      revert hr
      split
      next heq => intro hr; simp at hr
      next hm =>
        split
        next ns' repo' d' hb =>
          intro hr
          simp only [Route.blob.injEq] at hr
          obtain ⟨rfl, rfl, rfl⟩ := hr
          exact hb
        next => intro hr; simp at hr
    · exact routeRequest_of_blobMatch
  · intro hp hns hrepo hnsl hreposl hdsl hbad
    have hsplit : splitOnChar '/' (ns ++ '/' :: (repo ++ '/' ::
        (['b', 'l', 'o', 'b', 's'] ++ '/' :: d))) = [ns, repo, str "blobs", d] := by
      rw [splitOnChar_append _ hnsl, splitOnChar_append _ hreposl,
        splitOnChar_append _ (by decide), splitOnChar_not_mem hdsl]
      rfl
    have hp' : p = ['/', 'v', '2', '/'] ++ (ns ++ '/' :: (repo ++ '/' ::
        (['b', 'l', 'o', 'b', 's'] ++ '/' :: d))) := by
      rw [hp]; simp [str]
    have ht : (ns ++ '/' :: (repo ++ '/' ::
        (['b', 'l', 'o', 'b', 's'] ++ '/' :: d))) ≠ [] := by
      cases ns <;> simp
    rw [routeRequest_v2 hp' ht, manifestMatch_none_of_blobs hp' hsplit]
    have hbm : blobMatch p = none := by
      conv_lhs => rw [hp']
      unfold blobMatch
      rw [if_pos (by rfl)]
      have hdrop : ((['/', 'v', '2', '/'] : List Char) ++ (ns ++ '/' :: (repo ++ '/' ::
          (['b', 'l', 'o', 'b', 's'] ++ '/' :: d)))).drop 4 = (ns ++ '/' :: (repo ++ '/' ::
          (['b', 'l', 'o', 'b', 's'] ++ '/' :: d))) := rfl
      rw [hdrop, hsplit]
      refine if_neg ?_
      rintro ⟨-, -, -, hdig⟩
      rw [hbad] at hdig
      exact absurd hdig (by simp)
    rw [hbm]

/-- Witness for C8: an invalid digest (`xyz`) is passed through, and a
well-formed blob path is dispatched to the blob handler. -/
theorem C8_witness :
    routeRequest (str "/v2/a/b/blobs/xyz") = Route.passThrough ∧
    routeRequest (str "/v2/library/m/blobs/sha256:aaaaaaaaaaaaaaaaaaaaaaaaaaaaaaaaaaaaaaaaaaaaaaaaaaaaaaaaaaaaaaaa") =
      Route.blob (str "library") (str "m")
        (str "sha256:aaaaaaaaaaaaaaaaaaaaaaaaaaaaaaaaaaaaaaaaaaaaaaaaaaaaaaaaaaaaaaaa") :=
  ⟨(C8_blob_dispatch (str "/v2/a/b/blobs/xyz") (str "a") (str "b") (str "xyz")).2
      (by decide) (by decide) (by decide) (by decide) (by decide) (by decide)
      (by decide),
    (C8_blob_dispatch
        (str "/v2/library/m/blobs/sha256:aaaaaaaaaaaaaaaaaaaaaaaaaaaaaaaaaaaaaaaaaaaaaaaaaaaaaaaaaaaaaaaa")
        (str "library") (str "m")
        (str "sha256:aaaaaaaaaaaaaaaaaaaaaaaaaaaaaaaaaaaaaaaaaaaaaaaaaaaaaaaaaaaaaaaa")).1.mpr
      (by decide)⟩

/-! ## HTTP requests, responses and the transparent pass-through -/

/-- The parts of an incoming HTTP request the proxy reads: method, URL
path and raw query, headers, body bytes. -/
structure Request where
  method : List Char
  path : List Char
  query : List Char
  headers : List (List Char × List Char)
  body : List Nat
deriving DecidableEq

/-- An HTTP response: status code, headers, body bytes. -/
structure HResponse where
  status : Nat
  headers : List (List Char × List Char)
  body : List Nat
deriving DecidableEq

/-- `r.Header.Get(name)`: first value under the name, `""` if absent
(header names are used verbatim here; the embedding stores them in
their canonical spelling). -/
def getHeader (hs : List (List Char × List Char)) (name : List Char) : List Char :=
  match lookupAssoc hs name with
  | some v => v
  | none => []

/-- `w.Header().Set(name, value)`: replace any previous value. -/
def setHeader (hs : List (List Char × List Char)) (name value : List Char) :
    List (List Char × List Char) :=
  (name, value) :: hs.filter (fun kv => kv.1 ≠ name)

/-- The upstream request built by `proxyToUpstream`
(server.go:1002-1020): same method, same path and raw query against the
upstream base URL, all client headers copied, the client body streamed. -/
def forwardedRequest (r : Request) : Request :=
  { method := r.method, path := r.path, query := r.query,
    headers := r.headers, body := r.body }

/-- `proxyToUpstream` (server.go:1002-1040) with the upstream modelled
as an oracle `up`: issue the forwarded request and mirror the upstream
status, headers and body verbatim back to the client. -/
def proxyToUpstream (up : Request → HResponse) (r : Request) : HResponse :=
  up (forwardedRequest r)

/-- The fixed body text of `handleUnsupportedOperation`
(server.go:1526-1549); on the wire it is wrapped as the JSON object
with single key `error` (the wrapping adds JSON syntax only and is
elided from the byte model). -/
def unsupportedOperationMessage : String :=
  "This is an Ollama model cache server. Please use the pull operation to download models to your local machine, then unset OLLAMA_HOST and run models locally with a standard Ollama installation."

/-- `handleUnsupportedOperation` (server.go:1526-1549): a locally
generated `400 Bad Request` with a JSON usage message — the upstream is
never contacted. -/
def unsupportedOperationResponse : HResponse :=
  { status := 400,
    headers := [(str "Content-Type", str "application/json")],
    body := strBytes unsupportedOperationMessage }

/-- The claim's list of recognized URL shapes: `/v2/`, the manifest
pattern, the blob pattern, `/health`, `/cache/stats` (this definition
follows the words of the claim, for comparison with `routeRequest`). -/
def matchesRecognizedShape (p : List Char) : Bool :=
  p = str "/v2/" || (manifestMatch p).isSome || (blobMatch p).isSome ||
    p = str "/health" || p = str "/cache/stats"

/-- C5, counterexample: `/api/generate` matches none of the recognized
URL shapes, yet it is not passed through — `handleRequest`
(server.go:715-719) answers it locally with the fixed 400 response,
regardless of what the upstream would have said. -/
theorem C5_counterexample :
    matchesRecognizedShape (str "/api/generate") = false ∧
    routeRequest (str "/api/generate") = Route.unsupported (str "generate") ∧
    Route.unsupported (str "generate") ≠ Route.passThrough ∧
    unsupportedOperationResponse.status = 400 := by
  refine ⟨by decide, by decide, by decide, rfl⟩

/-- Longer prefixes keep the startsWith property falsifiable: if `pre`
is not a prefix then neither is `pre ++ ext`. -/
theorem listStartsWith_extend_false {pre p : List Char} (ext : List Char)
    (h : listStartsWith pre p = false) :
    listStartsWith (pre ++ ext) p = false := by
  by_contra hx
  have := (listStartsWith_iff (pre ++ ext) p).1 (by
    cases hy : listStartsWith (pre ++ ext) p
    · exact absurd hy hx
    · rfl)
  obtain ⟨t, rfl⟩ := this
  rw [List.append_assoc] at h
  rw [(listStartsWith_iff pre (pre ++ (ext ++ t))).2 ⟨ext ++ t, rfl⟩] at h
  exact absurd h (by simp)

/-- C5, amended: a request whose path matches none of the recognized
URL shapes *and* is not an Ollama `/api/` path *and* not under the
direct-download `/blobs` subtree is proxied transparently: the request
is dispatched to `proxyToUpstream`, which sends the method, path,
query, headers and body to the upstream and mirrors the upstream's
status, headers and body back. -/
theorem C5_passthrough (up : Request → HResponse) (r : Request)
    (h1 : matchesRecognizedShape r.path = false)
    (h2 : listStartsWith (str "/api/") r.path = false)
    (h3 : listStartsWith (str "/blobs") r.path = false) :
    routeRequest r.path = Route.passThrough ∧
    proxyToUpstream up r =
      up { method := r.method, path := r.path, query := r.query,
           headers := r.headers, body := r.body } := by
  refine ⟨?_, rfl⟩
  simp only [matchesRecognizedShape, Bool.or_eq_false_iff, decide_eq_false_iff_not] at h1
  obtain ⟨⟨⟨⟨hv2, hman⟩, hblob⟩, hhealth⟩, hstats⟩ := h1
  have hman' : manifestMatch r.path = none := by
    cases hm : manifestMatch r.path
    · rfl
    · rw [hm] at hman; simp at hman
  have hblob' : blobMatch r.path = none := by
    cases hb : blobMatch r.path
    · rfl
    · rw [hb] at hblob; simp at hblob
  have hapi5 : listStartsWith (str "/api/") r.path ≠ true := by simp [h2]
  have hblobs7 : listStartsWith (str "/blobs/") r.path = false := by
    have := listStartsWith_extend_false (str "/") h3
    simpa using this
  rw [routeRequest, if_neg hhealth, if_neg hstats, if_neg (by simp [hblobs7]),
    if_neg ?hpull, if_neg ?htags, if_neg ?hgen, if_neg ?hchat, if_neg hapi5,
    if_neg hv2, hman', hblob']
  case hpull =>
    intro hx
    exact hapi5 ((listStartsWith_iff _ _).2 ⟨str "pull", by rw [hx]; rfl⟩)
  case htags =>
    intro hx
    exact hapi5 ((listStartsWith_iff _ _).2 ⟨str "tags", by rw [hx]; rfl⟩)
  case hgen =>
    intro hx
    exact hapi5 ((listStartsWith_iff _ _).2 ⟨str "generate", by rw [hx]; rfl⟩)
  case hchat =>
    intro hx
    exact hapi5 ((listStartsWith_iff _ _).2 ⟨str "chat", by rw [hx]; rfl⟩)

/-- Witness for the amended C5 at a concrete unmatched path. -/
theorem C5_witness :
    matchesRecognizedShape (str "/index.html") = false ∧
    listStartsWith (str "/api/") (str "/index.html") = false ∧
    listStartsWith (str "/blobs") (str "/index.html") = false ∧
    (routeRequest (str "/index.html") = Route.passThrough ∧
      proxyToUpstream (fun q => ⟨204, q.headers, q.body⟩)
          ⟨str "GET", str "/index.html", str "a=1", [(str "Accept", str "*")], [7]⟩ =
        (fun q : Request => HResponse.mk 204 q.headers q.body)
          { method := str "GET", path := str "/index.html", query := str "a=1",
            headers := [(str "Accept", str "*")], body := [7] }) :=
  ⟨by decide, by decide, by decide,
    C5_passthrough (fun q => ⟨204, q.headers, q.body⟩)
      ⟨str "GET", str "/index.html", str "a=1", [(str "Accept", str "*")], [7]⟩
      (by decide) (by decide) (by decide)⟩

/-! ## Blob serving (`internal/proxy/server.go:1214-1476, 805-846, 926-1000`)

`handleBlobRequest` serves cached blobs through `serveBlobDirectFromV2`,
which delegates to `serveBlobDirect` whenever a `Range` header is
present; misses on `GET` go through `fetchAndCacheBlob` (upstream fetch
teed into `StoreBlob`), everything else through `proxyToUpstream`.
Sizes and offsets are Go `int64`s, embedded as `Int` with the
`strconv.ParseInt` 64-bit bounds made explicit. -/

/-- The numeric value of a decimal digit. -/
def digitVal (c : Char) : Option Nat :=
  if '0' ≤ c ∧ c ≤ '9' then some (c.toNat - '0'.toNat) else none

/-- Left-to-right decimal accumulation; fails on a non-digit. -/
def digitsVal : List Char → Nat → Option Nat
  | [], acc => some acc
  | c :: cs, acc =>
    match digitVal c with
    | some d => digitsVal cs (acc * 10 + d)
    | none => none

/-- Magnitude part of `strconv.ParseInt(s, 10, 64)`: nonempty digit
string within the `int64` range of the requested sign. -/
def parseGoIntMag (neg : Bool) (digits : List Char) : Option Int :=
  match digits with
  | [] => none
  | _ =>
    match digitsVal digits 0 with
    | some n =>
      if neg then
        if (n : Int) ≤ 2 ^ 63 then some (-(n : Int)) else none
      else
        if (n : Int) ≤ 2 ^ 63 - 1 then some (n : Int) else none
    | none => none

/-- `strconv.ParseInt(s, 10, 64)`: optional sign, decimal digits,
`int64` bounds; `none` is the error case (the caller of the range
parser keeps its default on error). -/
def parseGoInt : List Char → Option Int
  | [] => none
  | '+' :: rest => parseGoIntMag false rest
  | '-' :: rest => parseGoIntMag true rest
  | s => parseGoIntMag false s

/-- `fmt.Sprintf("%d", n)` for naturals. -/
def natToChars (n : Nat) : List Char := Nat.toDigits 10 n

/-- `fmt.Sprintf("%d", i)` for `int64` values. -/
def intToChars (i : Int) : List Char :=
  if i < 0 then '-' :: natToChars (-i).toNat else natToChars i.toNat

/-- `getBlobSize` (server.go:2015-2027): the size of the committed blob
file, `0` when the file does not exist. -/
def getBlobSize (st : Store) (digest : List Char) : Int :=
  match GetBlob st digest with
  | some b => (b.length : Int)
  | none => 0

/-- `http.Error(w, msg, code)`: drops `Content-Length`, sets
`Content-Type: text/plain; charset=utf-8` and
`X-Content-Type-Options: nosniff`, writes the status and the message
plus a newline. -/
def errorResponse (hs : List (List Char × List Char)) (msg : String)
    (code : Nat) : HResponse :=
  { status := code,
    headers :=
      setHeader
        (setHeader (hs.filter (fun kv => kv.1 ≠ str "Content-Length"))
          (str "Content-Type") (str "text/plain; charset=utf-8"))
        (str "X-Content-Type-Options") (str "nosniff"),
    body := strBytes msg ++ [10] }

/-- The unconditional response headers `serveBlobDirect` sets before
answering (server.go:1390-1399): content type, digest, range support,
caching, keep-alive, strong ETag and a fixed `Last-Modified`. -/
def directBlobHeaders (hdrs0 : List (List Char × List Char))
    (digest etag : List Char) : List (List Char × List Char) :=
  setHeader
    (setHeader
      (setHeader
        (setHeader
          (setHeader
            (setHeader
              (setHeader hdrs0 (str "Content-Type")
                (str "application/octet-stream"))
              (str "Docker-Content-Digest") digest)
            (str "Accept-Ranges") (str "bytes"))
          (str "Cache-Control") (str "public, max-age=3600"))
        (str "Connection") (str "keep-alive"))
      (str "ETag") etag)
    (str "Last-Modified") (str "Wed, 01 Jan 2020 00:00:00 GMT")

/-- `serveBlobDirect` (server.go:1311-1476): conditional-request and
range handling over a cached blob. `hdrs0` are the response headers
already set by the caller (`w.Header()` state on entry). Start/end
default to `0` and `size-1`; each endpoint is overridden only when its
part of `bytes=<start>-<end>` parses as an `int64`; the range is only
honored (`rangeApplies`) when a `Range` header other than `"="` is
present and any `If-Range` value equals the strong ETag `"<digest>"`.
An invalid resolved range (start<0, end≥size, start>end) yields 416
with `Content-Range: bytes */<size>`; otherwise the response carries
`Content-Length = end-start+1`, the 206 path adds
`Content-Range: bytes <start>-<end>/<size>`, and the body is the byte
slice `[start..end]` (empty for HEAD). -/
def serveBlobDirect (st : Store) (r : Request) (digest : List Char)
    (hdrs0 : List (List Char × List Char)) : HResponse :=
  let blobSize : Int := getBlobSize st digest
  if blobSize ≤ 0 then errorResponse hdrs0 "Internal Server Error" 500
  else
    let etag : List Char := '"' :: (digest ++ ['"'])
    let inm := getHeader r.headers (str "If-None-Match")
    if inm ≠ [] ∧ inm = etag then { status := 304, headers := hdrs0, body := [] }
    else
      let rangeHeader := getHeader r.headers (str "Range")
      let ifRange := getHeader r.headers (str "If-Range")
      let rangeApplies : Bool :=
        !(rangeHeader == []) && !(rangeHeader == str "=") &&
          (ifRange == [] || ifRange == etag)
      let se : Int × Int :=
        if rangeApplies then
          if listStartsWith (str "bytes=") rangeHeader then
            match splitOnChar '-' (rangeHeader.drop 6) with
            | [p0, p1] =>
              (if p0 ≠ [] then (parseGoInt p0).getD 0 else 0,
               if p1 ≠ [] then (parseGoInt p1).getD (blobSize - 1) else blobSize - 1)
            | _ => (0, blobSize - 1)
          else (0, blobSize - 1)
        else (0, blobSize - 1)
      if se.1 < 0 ∨ se.2 ≥ blobSize ∨ se.1 > se.2 then
        errorResponse
          (setHeader hdrs0 (str "Content-Range")
            (str "bytes */" ++ intToChars blobSize))
          "Requested Range Not Satisfiable" 416
      else
        match GetBlob st digest with
        | none => errorResponse hdrs0 "Internal Server Error" 500
        | some blob =>
          let hdrs1 := directBlobHeaders hdrs0 digest etag
          let contentLength := se.2 - se.1 + 1
          let hdrs2 := setHeader hdrs1 (str "Content-Length") (intToChars contentLength)
          let hdrs3 :=
            if rangeApplies then
              setHeader hdrs2 (str "Content-Range")
                (str "bytes " ++ intToChars se.1 ++ str "-" ++ intToChars se.2 ++
                  str "/" ++ intToChars blobSize)
            else hdrs2
          let sc : Nat := if rangeApplies then 206 else 200
          if r.method = str "HEAD" then
            { status := sc, headers := hdrs3, body := [] }
          else
            { status := sc, headers := hdrs3,
              body := (blob.drop se.1.toNat).take contentLength.toNat }

/-- `serveBlobDirectFromV2` (server.go:1214-1255): the direct-serving
path for cached blobs on `/v2/`: set the registry headers
(`Content-Length` = full size), then delegate to `serveBlobDirect` when
a `Range` header is present, else respond 200 with the complete bytes.
(The handler writes the body regardless of the method; `net/http`
discards it on the wire for HEAD.) -/
def serveBlobDirectFromV2 (st : Store) (r : Request) (digest : List Char) :
    HResponse :=
  match GetBlob st digest with
  | none => errorResponse [] "Internal Server Error" 500
  | some blob =>
    let blobSize := getBlobSize st digest
    let hdrs :=
      setHeader
        (setHeader
          (setHeader
            (setHeader
              (setHeader
                (setHeader [] (str "Content-Type") (str "application/octet-stream"))
                (str "Docker-Content-Digest") digest)
              (str "Content-Length") (intToChars blobSize))
            (str "Accept-Ranges") (str "bytes"))
          (str "Cache-Control") (str "public, max-age=31536000"))
        (str "Docker-Distribution-API-Version") (str "registry/2.0")
    if getHeader r.headers (str "Range") ≠ [] then serveBlobDirect st r digest hdrs
    else { status := 200, headers := hdrs, body := blob }

/-- `fetchAndCacheBlob` (server.go:926-1000): issue the upstream request
(same method, path, query and headers, empty body), mirror the upstream
status, headers and body to the client, and — only on upstream 200 —
tee the body into `StoreBlob` (whose digest check may discard it,
leaving the store unchanged). -/
def fetchAndCacheBlob (hash : List Nat → List Char) (up : Request → HResponse)
    (st : Store) (r : Request) (digest : List Char) : HResponse × Store :=
  let resp := up { method := r.method, path := r.path, query := r.query,
                   headers := r.headers, body := [] }
  (resp, if resp.status = 200 then (StoreBlob hash st digest resp.body).2 else st)

/-- `handleBlobRequest` (server.go:805-846): cached blobs are served
directly for `HEAD` and `GET`; a miss on `GET` goes through
`fetchAndCacheBlob`; everything else is proxied upstream. -/
def handleBlobRequest (hash : List Nat → List Char) (up : Request → HResponse)
    (st : Store) (r : Request) (digest : List Char) : HResponse × Store :=
  if HasBlob st digest ∧ (r.method = str "HEAD" ∨ r.method = str "GET") then
    (serveBlobDirectFromV2 st r digest, st)
  else if r.method = str "GET" then
    fetchAndCacheBlob hash up st r digest
  else
    (proxyToUpstream up r, st)

/-- Filtering out another key leaves a lookup unchanged. -/
theorem lookupAssoc_filter_ne {α : Type} (hs : List (List Char × α))
    {n n' : List Char} (h : n ≠ n') :
    lookupAssoc (hs.filter (fun kv => kv.1 ≠ n')) n = lookupAssoc hs n := by
  induction hs with
  | nil => rfl
  | cons kv rest ih =>
    obtain ⟨k, v⟩ := kv
    rw [List.filter_cons]
    by_cases hk : k = n'
    · rw [if_neg (by simp [hk]), ih]
      simp only [lookupAssoc]
      rw [if_neg (fun hx : k = n => h (hx ▸ hk))]
    · rw [if_pos (by simp [hk])]
      simp only [lookupAssoc]
      by_cases hkn : k = n
      · rw [if_pos hkn, if_pos hkn]
      · rw [if_neg hkn, if_neg hkn, ih]

/-- Reading the header just set. -/
theorem getHeader_setHeader_same (hs : List (List Char × List Char))
    (n v : List Char) : getHeader (setHeader hs n v) n = v := by
  simp [getHeader, setHeader, lookupAssoc]

/-- Setting one header does not disturb reads of another. -/
theorem getHeader_setHeader_other (hs : List (List Char × List Char))
    {n n' : List Char} (v : List Char) (h : n ≠ n') :
    getHeader (setHeader hs n' v) n = getHeader hs n := by
  simp only [getHeader, setHeader, lookupAssoc]
  rw [if_neg (fun hx : n' = n => h hx.symm), lookupAssoc_filter_ne hs h]

/-- Deleting one header does not disturb reads of another. -/
theorem getHeader_filter_ne (hs : List (List Char × List Char))
    {n n' : List Char} (h : n ≠ n') :
    getHeader (hs.filter (fun kv => kv.1 ≠ n')) n = getHeader hs n := by
  simp only [getHeader]
  rw [lookupAssoc_filter_ne hs h]

/-- C10. A `HEAD` request dispatched by the blob pattern whose digest is
not cached is proxied to the upstream — the forwarded request and the
mirrored response of `proxyToUpstream` — and neither `StoreBlob` nor
`StoreManifest` runs: the cache state is unchanged, so `HasBlob` and
`HasManifest` answer afterwards exactly as before. -/
theorem C10_head_miss_frame (hash : List Nat → List Char)
    (up : Request → HResponse) (st : Store) (r : Request)
    (ns repo d : List Char) (hroute : routeRequest r.path = Route.blob ns repo d)
    (hm : r.method = str "HEAD") (hmiss : HasBlob st d = false) :
    handleBlobRequest hash up st r d = (proxyToUpstream up r, st) ∧
    (∀ d2, HasBlob (handleBlobRequest hash up st r d).2 d2 = HasBlob st d2) ∧
    (∀ k, HasManifest (handleBlobRequest hash up st r d).2 k = HasManifest st k) := by
  have hmain : handleBlobRequest hash up st r d = (proxyToUpstream up r, st) := by
    unfold handleBlobRequest
    rw [if_neg (by simp [hmiss]), if_neg (by rw [hm]; decide)]
  exact ⟨hmain, fun d2 => by rw [hmain], fun k => by rw [hmain]⟩

/-- Witness for C10 at a concrete request and empty store. -/
theorem C10_witness :
    routeRequest (str "/v2/a/b/blobs/sha256:aaaaaaaaaaaaaaaaaaaaaaaaaaaaaaaaaaaaaaaaaaaaaaaaaaaaaaaaaaaaaaaa") =
      Route.blob (str "a") (str "b")
        (str "sha256:aaaaaaaaaaaaaaaaaaaaaaaaaaaaaaaaaaaaaaaaaaaaaaaaaaaaaaaaaaaaaaaa") ∧
    HasBlob emptyStore
      (str "sha256:aaaaaaaaaaaaaaaaaaaaaaaaaaaaaaaaaaaaaaaaaaaaaaaaaaaaaaaaaaaaaaaa") = false ∧
    handleBlobRequest (fun _ => str "h") (fun _ => ⟨418, [], [9]⟩) emptyStore
        ⟨str "HEAD",
          str "/v2/a/b/blobs/sha256:aaaaaaaaaaaaaaaaaaaaaaaaaaaaaaaaaaaaaaaaaaaaaaaaaaaaaaaaaaaaaaaa",
          [], [], []⟩
        (str "sha256:aaaaaaaaaaaaaaaaaaaaaaaaaaaaaaaaaaaaaaaaaaaaaaaaaaaaaaaaaaaaaaaa") =
      (proxyToUpstream (fun _ => ⟨418, [], [9]⟩)
        ⟨str "HEAD",
          str "/v2/a/b/blobs/sha256:aaaaaaaaaaaaaaaaaaaaaaaaaaaaaaaaaaaaaaaaaaaaaaaaaaaaaaaaaaaaaaaa",
          [], [], []⟩, emptyStore) :=
  ⟨by decide, by decide,
    (C10_head_miss_frame (fun _ => str "h") (fun _ => ⟨418, [], [9]⟩) emptyStore
      ⟨str "HEAD",
        str "/v2/a/b/blobs/sha256:aaaaaaaaaaaaaaaaaaaaaaaaaaaaaaaaaaaaaaaaaaaaaaaaaaaaaaaaaaaaaaaa",
        [], [], []⟩
      (str "a") (str "b")
      (str "sha256:aaaaaaaaaaaaaaaaaaaaaaaaaaaaaaaaaaaaaaaaaaaaaaaaaaaaaaaaaaaaaaaa")
      (by decide) (by decide) (by decide)).1⟩

/-- A digest of the valid form, for concrete instances. -/
def exDigest : List Char :=
  str "sha256:aaaaaaaaaaaaaaaaaaaaaaaaaaaaaaaaaaaaaaaaaaaaaaaaaaaaaaaaaaaaaaaa"

/-- A store holding one two-byte blob under `exDigest`. -/
def exStore : Store := { blobs := [(exDigest, [7, 8])], manifests := [] }

/-- A `GET` for the cached blob carrying `If-None-Match` equal to the
blob's strong ETag and no `Range` header. -/
def inmRequest : Request :=
  { method := str "GET",
    path := str "/v2/a/b/blobs/" ++ exDigest,
    query := [],
    headers := [(str "If-None-Match", '"' :: (exDigest ++ ['"']))],
    body := [] }

/-- C7, counterexample: a `GET` for a cached blob whose `If-None-Match`
equals the strong ETag but which carries no `Range` header is answered
`200` with the full body — `serveBlobDirectFromV2` only consults the
conditional headers via `serveBlobDirect`, which it reaches only when a
`Range` header is present — where the claim demands `304` and no body. -/
theorem C7_counterexample :
    getHeader inmRequest.headers (str "If-None-Match") =
      '"' :: (exDigest ++ ['"']) ∧
    HasBlob exStore exDigest = true ∧
    (handleBlobRequest (fun _ => str "h") (fun _ => ⟨500, [], []⟩)
      exStore inmRequest exDigest).1.status = 200 ∧
    (handleBlobRequest (fun _ => str "h") (fun _ => ⟨500, [], []⟩)
      exStore inmRequest exDigest).1.body = [7, 8] := by
  refine ⟨by decide, by decide, by decide, by decide⟩

/-- `serveBlobDirect` answers `304 Not Modified` with no body when
`If-None-Match` equals the strong ETag of a nonempty cached blob. -/
theorem serveBlobDirect_inm_304 (st : Store) (r : Request) (digest : List Char)
    (hdrs0 : List (List Char × List Char)) (blob : List Nat)
    (hblob : GetBlob st digest = some blob) (hne : blob ≠ [])
    (hinm : getHeader r.headers (str "If-None-Match") = '"' :: (digest ++ ['"'])) :
    serveBlobDirect st r digest hdrs0 =
      { status := 304, headers := hdrs0, body := [] } := by
  have hsize : getBlobSize st digest = (blob.length : Int) := by
    unfold getBlobSize
    rw [hblob]
  have hpos : ¬((blob.length : Int) ≤ 0) := by
    have : blob.length ≠ 0 := fun hz => hne (List.eq_nil_of_length_eq_zero hz)
    omega
  unfold serveBlobDirect
  rw [hsize, if_neg hpos, hinm]
  rw [if_pos ⟨by simp, rfl⟩]

/-- C7, amended: a `GET` or `HEAD` for a cached (nonempty) blob that
carries a `Range` header — the only case in which the conditional
checks of `serveBlobDirect` are reached — and `If-None-Match` equal to
the blob's strong ETag `"<digest>"` is answered `304 Not Modified` with
no body. -/
theorem C7_if_none_match (hash : List Nat → List Char) (up : Request → HResponse)
    (st : Store) (r : Request) (d : List Char) (blob : List Nat)
    (hblob : GetBlob st d = some blob) (hne : blob ≠ [])
    (hmeth : r.method = str "HEAD" ∨ r.method = str "GET")
    (hrange : getHeader r.headers (str "Range") ≠ [])
    (hinm : getHeader r.headers (str "If-None-Match") = '"' :: (d ++ ['"'])) :
    (handleBlobRequest hash up st r d).1.status = 304 ∧
    (handleBlobRequest hash up st r d).1.body = [] := by
  have hhas : HasBlob st d = true := by
    unfold HasBlob
    rw [show lookupAssoc st.blobs d = some blob from hblob]
    rfl
  unfold handleBlobRequest
  rw [if_pos ⟨hhas, hmeth⟩]
  unfold serveBlobDirectFromV2
  rw [hblob]
  simp only []
  rw [if_pos hrange, serveBlobDirect_inm_304 st r d _ blob hblob hne hinm]
  exact ⟨rfl, rfl⟩

/-- Witness for the amended C7: the `inmRequest` headers plus
`Range: bytes=0-0` produce a 304 with no body. -/
theorem C7_witness :
    GetBlob exStore exDigest = some [7, 8] ∧
    (handleBlobRequest (fun _ => str "h") (fun _ => ⟨500, [], []⟩) exStore
      { method := str "GET", path := str "/v2/a/b/blobs/" ++ exDigest, query := [],
        headers := [(str "If-None-Match", '"' :: (exDigest ++ ['"'])),
                    (str "Range", str "bytes=0-0")],
        body := [] } exDigest).1.status = 304 ∧
    (handleBlobRequest (fun _ => str "h") (fun _ => ⟨500, [], []⟩) exStore
      { method := str "GET", path := str "/v2/a/b/blobs/" ++ exDigest, query := [],
        headers := [(str "If-None-Match", '"' :: (exDigest ++ ['"'])),
                    (str "Range", str "bytes=0-0")],
        body := [] } exDigest).1.body = [] := by
  refine ⟨by decide, ?_⟩
  exact C7_if_none_match (fun _ => str "h") (fun _ => ⟨500, [], []⟩) exStore
    { method := str "GET", path := str "/v2/a/b/blobs/" ++ exDigest, query := [],
      headers := [(str "If-None-Match", '"' :: (exDigest ++ ['"'])),
                  (str "Range", str "bytes=0-0")],
      body := [] } exDigest [7, 8] (by decide) (by decide) (Or.inr rfl)
    (by decide) (by decide)

/-- Resolution of a `Range: bytes=<sC>-<eC>` header by
`serveBlobDirect` on a cached nonempty blob, with no conditional
headers in play: the endpoints default to `0` and `size-1` when empty,
otherwise take their parsed values; an invalid resolved range yields
the 416 error response with `Content-Range: bytes */<size>`, a valid
one the 206 response with `Content-Length = e-s+1`,
`Content-Range: bytes <s>-<e>/<size>` and the byte slice `[s..e]`. -/
theorem serveBlobDirect_range (st : Store) (r : Request) (digest : List Char)
    (hdrs0 : List (List Char × List Char)) (blob : List Nat)
    (sC eC : List Char) (sV eV : Int)
    (hblob : GetBlob st digest = some blob) (hne : blob ≠ [])
    (hmeth : r.method = str "GET")
    (hinm : getHeader r.headers (str "If-None-Match") = [])
    (hifr : getHeader r.headers (str "If-Range") = [])
    (hrange : getHeader r.headers (str "Range") = str "bytes=" ++ (sC ++ '-' :: eC))
    (hsC : ('-' : Char) ∉ sC) (heC : ('-' : Char) ∉ eC)
    (hsv : (sC = [] ∧ sV = 0) ∨ (sC ≠ [] ∧ parseGoInt sC = some sV))
    (hev : (eC = [] ∧ eV = (blob.length : Int) - 1) ∨
      (eC ≠ [] ∧ parseGoInt eC = some eV)) :
    serveBlobDirect st r digest hdrs0 =
      if sV < 0 ∨ eV ≥ (blob.length : Int) ∨ sV > eV then
        errorResponse
          (setHeader hdrs0 (str "Content-Range")
            (str "bytes */" ++ intToChars (blob.length : Int)))
          "Requested Range Not Satisfiable" 416
      else
        { status := 206,
          headers :=
            setHeader
              (setHeader (directBlobHeaders hdrs0 digest ('"' :: (digest ++ ['"'])))
                (str "Content-Length") (intToChars (eV - sV + 1)))
              (str "Content-Range")
              (str "bytes " ++ intToChars sV ++ str "-" ++ intToChars eV ++
                str "/" ++ intToChars (blob.length : Int)),
          body := (blob.drop sV.toNat).take (eV - sV + 1).toNat } := by
  have hsize : getBlobSize st digest = (blob.length : Int) := by
    unfold getBlobSize
    rw [hblob]
  have hpos : ¬((blob.length : Int) ≤ 0) := by
    have : blob.length ≠ 0 := fun hz => hne (List.eq_nil_of_length_eq_zero hz)
    omega
  unfold serveBlobDirect
  simp only []
  rw [hsize, if_neg hpos, hinm, hifr, hrange]
  rw [if_neg (by simp)]
  have e1 : ((str "bytes=" ++ (sC ++ '-' :: eC)) == ([] : List Char)) = false := rfl
  have e2 : ((str "bytes=" ++ (sC ++ '-' :: eC)) == str "=") = false := rfl
  have e3 : (([] : List Char) == ([] : List Char)) = true := rfl
  rw [e1, e2, e3]
  simp only [Bool.not_false, Bool.true_and, Bool.and_true, Bool.true_or, Bool.and_self,
    if_true]
  have e4 : listStartsWith (str "bytes=") (str "bytes=" ++ (sC ++ '-' :: eC)) = true :=
    (listStartsWith_iff _ _).2 ⟨_, rfl⟩
  rw [e4]
  have e5 : (str "bytes=" ++ (sC ++ '-' :: eC)).drop 6 = sC ++ '-' :: eC := rfl
  rw [if_pos rfl, e5, splitOnChar_append _ hsC, splitOnChar_not_mem heC]
  simp only []
  have hse : (if sC ≠ [] then (parseGoInt sC).getD 0 else 0) = sV := by
    rcases hsv with ⟨rfl, rfl⟩ | ⟨hsne, hparse⟩
    · simp
    · rw [if_pos hsne, hparse]
      rfl
  have hee : (if eC ≠ [] then (parseGoInt eC).getD ((blob.length : Int) - 1)
      else ((blob.length : Int) - 1)) = eV := by
    rcases hev with ⟨rfl, rfl⟩ | ⟨hene, hparseE⟩
    · simp
    · rw [if_pos hene, hparseE]
      rfl
  rw [hse, hee, hblob]
  simp only []
  rw [hmeth, if_neg (show ¬(str "GET" = str "HEAD") from by decide)]

/-- C3. A `GET` for a cached (nonempty) blob carrying
`Range: bytes=<start>-<end>` — each endpoint either empty or a decimal
that parses as an `int64` (`strconv.ParseInt`), an empty start
defaulting to `0` and an empty end to `size-1`, with no other
conditional headers — is answered `206` with
`Content-Range: bytes <start>-<end>/<size>`,
`Content-Length = end-start+1` and the byte slice `[start..end]` when
`0 ≤ start ≤ end < size`, and `416` with
`Content-Range: bytes */<size>` when `end ≥ size` or `start > end`
(a negative start cannot arise from the parser, since `-` is the range
separator). -/
theorem C3_range_request (hash : List Nat → List Char) (up : Request → HResponse)
    (st : Store) (r : Request) (d : List Char) (blob : List Nat)
    (sC eC : List Char) (sV eV : Int)
    (hblob : GetBlob st d = some blob) (hne : blob ≠ [])
    (hmeth : r.method = str "GET")
    (hinm : getHeader r.headers (str "If-None-Match") = [])
    (hifr : getHeader r.headers (str "If-Range") = [])
    (hrange : getHeader r.headers (str "Range") = str "bytes=" ++ (sC ++ '-' :: eC))
    (hsC : ('-' : Char) ∉ sC) (heC : ('-' : Char) ∉ eC)
    (hsv : (sC = [] ∧ sV = 0) ∨ (sC ≠ [] ∧ parseGoInt sC = some sV))
    (hev : (eC = [] ∧ eV = (blob.length : Int) - 1) ∨
      (eC ≠ [] ∧ parseGoInt eC = some eV)) :
    ((0 ≤ sV ∧ sV ≤ eV ∧ eV < (blob.length : Int)) →
      (handleBlobRequest hash up st r d).1.status = 206 ∧
      getHeader (handleBlobRequest hash up st r d).1.headers (str "Content-Range") =
        str "bytes " ++ intToChars sV ++ str "-" ++ intToChars eV ++ str "/" ++
          intToChars (blob.length : Int) ∧
      getHeader (handleBlobRequest hash up st r d).1.headers (str "Content-Length") =
        intToChars (eV - sV + 1) ∧
      (handleBlobRequest hash up st r d).1.body =
        (blob.drop sV.toNat).take (eV - sV + 1).toNat) ∧
    ((eV ≥ (blob.length : Int) ∨ sV > eV) →
      (handleBlobRequest hash up st r d).1.status = 416 ∧
      getHeader (handleBlobRequest hash up st r d).1.headers (str "Content-Range") =
        str "bytes */" ++ intToChars (blob.length : Int)) := by
  have hhas : HasBlob st d = true := by
    unfold HasBlob
    rw [show lookupAssoc st.blobs d = some blob from hblob]
    rfl
  have hfromv2 : handleBlobRequest hash up st r d = (serveBlobDirectFromV2 st r d, st) := by
    unfold handleBlobRequest
    rw [if_pos ⟨hhas, Or.inr hmeth⟩]
  have hrange_ne : getHeader r.headers (str "Range") ≠ [] := by
    rw [hrange]
    exact List.cons_ne_nil _ _
  constructor
  · intro hcond
    have hval : ¬(sV < 0 ∨ eV ≥ (blob.length : Int) ∨ sV > eV) := by omega
    rw [hfromv2]
    simp only []
    unfold serveBlobDirectFromV2
    rw [hblob]
    simp only []
    rw [if_pos hrange_ne]
    rw [serveBlobDirect_range st r d _ blob sC eC sV eV hblob hne hmeth hinm hifr
      hrange hsC heC hsv hev]
    rw [if_neg hval]
    refine ⟨rfl, ?_, ?_, rfl⟩
    · rw [getHeader_setHeader_same]
    · rw [getHeader_setHeader_other _ _
        (show str "Content-Length" ≠ str "Content-Range" from by decide),
        getHeader_setHeader_same]
  · intro hcond
    have hval : sV < 0 ∨ eV ≥ (blob.length : Int) ∨ sV > eV := by
      rcases hcond with h | h
      · exact Or.inr (Or.inl h)
      · exact Or.inr (Or.inr h)
    rw [hfromv2]
    simp only []
    unfold serveBlobDirectFromV2
    rw [hblob]
    simp only []
    rw [if_pos hrange_ne]
    rw [serveBlobDirect_range st r d _ blob sC eC sV eV hblob hne hmeth hinm hifr
      hrange hsC heC hsv hev]
    rw [if_pos hval]
    refine ⟨rfl, ?_⟩
    unfold errorResponse
    simp only []
    rw [getHeader_setHeader_other _ _
        (show str "Content-Range" ≠ str "X-Content-Type-Options" from by decide),
      getHeader_setHeader_other _ _
        (show str "Content-Range" ≠ str "Content-Type" from by decide),
      getHeader_filter_ne _
        (show str "Content-Range" ≠ str "Content-Length" from by decide),
      getHeader_setHeader_same]

/-- A store holding one three-byte blob under `exDigest`. -/
def rangeStore : Store := { blobs := [(exDigest, [10, 20, 30])], manifests := [] }

/-- A `GET` for that blob with `Range: bytes=1-2`. -/
def rangeRequest : Request :=
  { method := str "GET", path := str "/v2/a/b/blobs/" ++ exDigest, query := [],
    headers := [(str "Range", str "bytes=1-2")], body := [] }

/-- Witness for C3: `Range: bytes=1-2` on a cached 3-byte blob yields
206, `Content-Range: bytes 1-2/3`, `Content-Length: 2` and the middle
slice. -/
theorem C3_witness :
    (handleBlobRequest (fun _ => str "h") (fun _ => ⟨500, [], []⟩) rangeStore
        rangeRequest exDigest).1.status = 206 ∧
    getHeader (handleBlobRequest (fun _ => str "h") (fun _ => ⟨500, [], []⟩)
        rangeStore rangeRequest exDigest).1.headers (str "Content-Range") =
      str "bytes " ++ intToChars 1 ++ str "-" ++ intToChars 2 ++ str "/" ++
        intToChars (([10, 20, 30] : List Nat).length : Int) ∧
    getHeader (handleBlobRequest (fun _ => str "h") (fun _ => ⟨500, [], []⟩)
        rangeStore rangeRequest exDigest).1.headers (str "Content-Length") =
      intToChars (2 - 1 + 1) ∧
    (handleBlobRequest (fun _ => str "h") (fun _ => ⟨500, [], []⟩) rangeStore
        rangeRequest exDigest).1.body =
      (([10, 20, 30] : List Nat).drop (1 : Int).toNat).take ((2 - 1 + 1 : Int)).toNat :=
  (C3_range_request (fun _ => str "h") (fun _ => ⟨500, [], []⟩) rangeStore
      rangeRequest exDigest [10, 20, 30] (str "1") (str "2") 1 2 (by decide)
      (by decide) (by decide) (by decide) (by decide) (by decide) (by decide)
      (by decide) (by decide) (by decide)).1 (by decide)

/-! ## DNS interception (`internal/dns/server.go:62-111`)

`handleDNSRequest` walks the questions of the incoming message: an
A-type question whose name, after `strings.TrimSuffix(name, ".")`,
equals the configured registry host (a *case-sensitive* comparison)
appends one A record (TTL 300, class IN, the parsed redirect address);
any other question — wrong type, different name, or an unparsable
redirect IP — makes the handler forward the entire original query
upstream and return.  The reply, when produced, is authoritative
(`msg.Authoritative = true`). `net.ParseIP` + `To4` is modelled for
IPv4 dotted-quad literals (an IPv6-literal redirect is outside the
model). -/

/-- One question of a DNS query: QNAME and QTYPE (A = 1). -/
structure DnsQuestion where
  name : List Char
  qtype : Nat
deriving DecidableEq

/-- A synthesized A record: name, type, class, TTL, IPv4 address. -/
structure ARecord where
  name : List Char
  rrtype : Nat
  rrclass : Nat
  ttl : Nat
  addr : Nat × Nat × Nat × Nat
deriving DecidableEq

/-- What the DNS handler does with a query: answer it itself
(authoritative flag and answer records) or forward it upstream. -/
inductive DnsOutcome where
  | reply (authoritative : Bool) (answers : List ARecord)
  | forward
deriving DecidableEq

/-- One dotted-quad field: 1-3 digits, no leading zero, value ≤ 255
(the `net.ParseIP` IPv4 field rules). -/
def parseIPv4Field (s : List Char) : Option Nat :=
  match s with
  | [] => none
  | c :: rest =>
    if c = '0' ∧ rest ≠ [] then none
    else if s.length > 3 then none
    else
      match digitsVal s 0 with
      | some n => if n ≤ 255 then some n else none
      | none => none

/-- `net.ParseIP` restricted to IPv4 dotted-quad literals, composed
with `To4`. -/
def parseIPv4 (s : List Char) : Option (Nat × Nat × Nat × Nat) :=
  match splitOnChar '.' s with
  | [a, b, c, d] =>
    match parseIPv4Field a, parseIPv4Field b, parseIPv4Field c, parseIPv4Field d with
    | some x, some y, some z, some w => some (x, y, z, w)
    | _, _, _, _ => none
  | _ => none

/-- `strings.TrimSuffix(name, ".")`. -/
def trimTrailingDot (s : List Char) : List Char :=
  if s.getLast? = some '.' then s.dropLast else s

/-- The question loop of `handleDNSRequest` (dns/server.go:67-106),
accumulating answers; any non-matching question forwards the whole
query and returns. -/
def processQuestions (registryHost redirectIP : List Char) :
    List DnsQuestion → List ARecord → DnsOutcome
  | [], acc => .reply true acc
  | q :: rest, acc =>
    if q.qtype = 1 then
      if trimTrailingDot q.name = registryHost then
        match parseIPv4 redirectIP with
        | none => .forward
        | some ip =>
          processQuestions registryHost redirectIP rest
            (acc ++ [{ name := q.name, rrtype := 1, rrclass := 1, ttl := 300,
                       addr := ip }])
      else .forward
    else .forward

/-- `handleDNSRequest` (dns/server.go:62-111): reply authoritatively
with the accumulated A records, or forward. -/
def handleDNSRequest (registryHost redirectIP : List Char)
    (questions : List DnsQuestion) : DnsOutcome :=
  processQuestions registryHost redirectIP questions []

/-- The claim's QNAME normalization: lowercase and strip one trailing
dot (this definition follows the words of the claim, for comparison
with the code's `trimTrailingDot`-only handling). -/
def claimNormalizeQName (s : List Char) : List Char :=
  (trimTrailingDot s).map Char.toLower

/-- C6, counterexample: an A query for `REGISTRY.OLLAMA.AI.` — whose
claim-normalized QNAME equals the intercepted hostname
`registry.ollama.ai`, with a valid redirect IPv4 configured — is
*forwarded upstream*: the code compares the trailing-dot-stripped name
case-sensitively and never lowercases, where the claim demands an
authoritative self-answer. -/
theorem C6_counterexample :
    claimNormalizeQName (str "REGISTRY.OLLAMA.AI.") = str "registry.ollama.ai" ∧
    parseIPv4 (str "192.168.1.100") = some (192, 168, 1, 100) ∧
    handleDNSRequest (str "registry.ollama.ai") (str "192.168.1.100")
      [⟨str "REGISTRY.OLLAMA.AI.", 1⟩] = DnsOutcome.forward := by
  refine ⟨by decide, by decide, by decide⟩

/-- C6, amended: for a single-question A query whose QNAME equals the
intercepted hostname after stripping one trailing dot — compared
case-sensitively, with no lowercasing — and a redirect address that
parses as an IPv4 dotted quad, the server answers itself without
forwarding: an authoritative response containing exactly one A record
with the configured address, TTL 300, class IN. -/
theorem C6_dns_intercept (registryHost redirectIP qn : List Char)
    (ip : Nat × Nat × Nat × Nat)
    (hip : parseIPv4 redirectIP = some ip)
    (hname : trimTrailingDot qn = registryHost) :
    handleDNSRequest registryHost redirectIP [⟨qn, 1⟩] =
      DnsOutcome.reply true
        [{ name := qn, rrtype := 1, rrclass := 1, ttl := 300, addr := ip }] := by
  simp [handleDNSRequest, processQuestions, hname, hip]

/-- Witness for the amended C6 at the configuration of the spec's
scenario S5. -/
theorem C6_witness :
    parseIPv4 (str "192.168.1.100") = some (192, 168, 1, 100) ∧
    trimTrailingDot (str "registry.ollama.ai.") = str "registry.ollama.ai" ∧
    handleDNSRequest (str "registry.ollama.ai") (str "192.168.1.100")
        [⟨str "registry.ollama.ai.", 1⟩] =
      DnsOutcome.reply true
        [{ name := str "registry.ollama.ai.", rrtype := 1, rrclass := 1,
           ttl := 300, addr := (192, 168, 1, 100) }] :=
  ⟨by decide, by decide,
    C6_dns_intercept (str "registry.ollama.ai") (str "192.168.1.100")
      (str "registry.ollama.ai.") (192, 168, 1, 100) (by decide) (by decide)⟩

/-! ## The upstream HTTP client and its timeout (claim C9)

`NewServer` (server.go:600-613) builds one `http.Client` with
`Timeout: 30 * time.Second` and stores it as `s.client`; `Client.Timeout`
in Go is a *whole-request* bound that keeps running while the response
body is being read.  Every upstream call in the proxy —
`fetchAndCacheManifest`, `fetchAndCacheBlob` (server.go:958) and
`proxyToUpstream` — goes through `s.client.Do`, so blob-miss streaming
transfers run under the same 30-second whole-request deadline as
control requests. -/

/-- The timeout configuration of an upstream HTTP client; `none` would
model a client with no whole-request deadline. -/
structure ClientConfig where
  wholeRequestTimeoutSeconds : Option Nat
deriving DecidableEq

/-- The single client built by `NewServer`: `Timeout: 30 * time.Second`. -/
def newServerClient : ClientConfig := { wholeRequestTimeoutSeconds := some 30 }

/-- The client `fetchAndCacheBlob` uses for the upstream blob fetch
(server.go:958 `s.client.Do(upstreamReq)`): the same single client. -/
def fetchAndCacheBlobClient : ClientConfig := newServerClient

/-- The client used for control requests (`proxyToUpstream`,
`fetchAndCacheManifest`): also `s.client`. -/
def controlRequestClient : ClientConfig := newServerClient

/-- C9: the blob-miss fetch runs under the same whole-request
30-second client timeout as every control request — there is no
separate unbounded (idle-timeout-only) client for blob streams, so a
transfer that takes longer than 30 seconds is cut off. -/
theorem C9_blob_timeout :
    fetchAndCacheBlobClient.wholeRequestTimeoutSeconds = some 30 ∧
    fetchAndCacheBlobClient = controlRequestClient ∧
    fetchAndCacheBlobClient.wholeRequestTimeoutSeconds ≠ none := by
  refine ⟨rfl, rfl, by decide⟩

end OllamaLancache
